import Mathlib

/-!
Verification of the ReAgent coordination substrate: the message record, the
message pool with visibility filtering and time-indexed snapshots
(Interaction/messagepool.py), the environment with global checkpoints,
revert and conflict resolution (Environment/environment.py), and the
group-chat trust graph and round loop (Environment/groupchat.py).

Python dictionaries are modelled as association lists observed through
`lookupKey`; assignment is `insertKey`, which shadows and drops any earlier
binding of the same key. Python's `copy.deepcopy` is the identity on the
immutable Lean values. Float scores are modelled as exact rationals.
Agent step behaviour (`run_one_step`) is arbitrary Python code in the
source, so the step phase is a function parameter `act` constrained only by
hypotheses that reflect the participant contract.
-/

/-- Recipient field of a message: either a plain identifier string (possibly
the broadcast sentinel "ALL") or a list of identifiers, mirroring the
`isinstance(m.send_to, list)` test in `get_visibile_messages`. -/
inductive Recipient where
  | str (s : String)
  | names (l : List String)
deriving DecidableEq

/-- One communication event (Interaction/message.py). The timestamp and id
are taken as given; their Python defaults (wall clock, UUID) are effects
outside the claims. -/
structure Message where
  content : String
  send_from : String
  send_to : Recipient
  timestamp : ℚ
  msg_id : String
deriving DecidableEq

/-- Python dict indexing on an association list: the value of the first pair
whose key equals `k`. -/
def lookupKey {α β : Type} [DecidableEq α] (k : α) : List (α × β) → Option β
  | [] => none
  | q :: rest => if q.1 = k then some q.2 else lookupKey k rest

/-- Python dict assignment: bind `k` to `v`, dropping any earlier binding of
`k` (overwrite semantics; key order is not observed by the claims). -/
def insertKey {α β : Type} [DecidableEq α] (k : α) (v : β) (l : List (α × β)) : List (α × β) :=
  (k, v) :: l.filter (fun q => decide (q.1 ≠ k))

/-- MessagePool state (Interaction/messagepool.py): the live message list and
the dictionary of time-indexed snapshots. -/
structure MessagePool where
  messages : List Message
  history_snapshots : List (Nat × List Message)

/-- MessagePool.update_message: append a message to the live sequence. -/
def update_message (p : MessagePool) (msg : Message) : MessagePool :=
  { p with messages := p.messages ++ [msg] }

/-- MessagePool.get_visibile_messages: the whole pool for the sentinel "all",
otherwise the messages addressed to "ALL" or containing the given name. -/
def get_visibile_messages (p : MessagePool) (visibile : String) : List Message :=
  if visibile = "all" then p.messages
  else p.messages.filter (fun m =>
    match m.send_to with
    | Recipient.str s => s == "ALL" || s == visibile
    | Recipient.names l => l.contains visibile)

/-- MessagePool.get_ones_messages: the whole pool for "all", otherwise the
messages whose sender equals the name or equals "all". -/
def get_ones_messages (p : MessagePool) (name : String) : List Message :=
  if name = "all" then p.messages
  else p.messages.filter (fun m => m.send_from == name || m.send_from == "all")

/-- MessagePool.snapshot_state: store a copy of the live sequence at the
given time index, overwriting any prior snapshot at that index. -/
def snapshot_state (p : MessagePool) (time_index : Nat) : MessagePool :=
  { p with history_snapshots := insertKey time_index p.messages p.history_snapshots }

/-- MessagePool.revert_state: replace the live sequence by the snapshot at
the index when present, otherwise do nothing. Snapshots are not touched. -/
def revert_state (p : MessagePool) (time_index : Nat) : MessagePool :=
  match lookupKey time_index p.history_snapshots with
  | some ms => { p with messages := ms }
  | none => p

/-- MessagePool.prune_snapshots_after: delete every snapshot whose index
exceeds the cutoff, i.e. keep exactly the indices at most the cutoff. -/
def prune_snapshots_after (p : MessagePool) (time_index : Nat) : MessagePool :=
  { p with history_snapshots :=
      p.history_snapshots.filter (fun q => decide (q.1 ≤ time_index)) }

/-- A sequence of appends through `update_message`. -/
def appendMessages (p : MessagePool) (ms : List Message) : MessagePool :=
  List.foldl update_message p ms

/-- Participant local state (Agent/agent.py BaseAgent.local_state): verified
facts, a history log, and a backtrack stack of deep copies of the whole
structure. -/
inductive LState where
  | mk (verified_facts : List String) (history : List String) (backtrack_stack : List LState)

/-- A registered participant: its name and its local state. The
`message_bus` back-reference carries no state of its own. -/
structure Agent where
  name : String
  local_state : LState

/-- One bundle of Environment.checkpoint_environment: the time, a copy of
the pool's live messages, and a copy of every participant's local state. -/
structure EnvSnapshot where
  time : Nat
  message_pool : List Message
  agents_state : List (String × LState)

/-- Environment state (Environment/environment.py). -/
structure EnvState where
  people : List Agent
  message_pool : MessagePool
  current_time : Nat
  global_history : List (Nat × EnvSnapshot)
  global_conflict_raised : Bool
  conflict_details : Option String

/-- Environment.__init__: empty pool, time zero, no history, no conflict. -/
def initialEnv (people : List Agent) : EnvState :=
  { people := people,
    message_pool := { messages := [], history_snapshots := [] },
    current_time := 0,
    global_history := [],
    global_conflict_raised := false,
    conflict_details := none }

/-- Environment.checkpoint_environment: store at the current time a bundle
of the pool contents and each agent's local state. -/
def checkpoint_environment (e : EnvState) : EnvState :=
  let snapshot : EnvSnapshot :=
    { time := e.current_time,
      message_pool := e.message_pool.messages,
      agents_state := e.people.map (fun a => (a.name, a.local_state)) }
  { e with global_history := insertKey e.current_time snapshot e.global_history }

/-- Environment.revert_environment: when a snapshot exists at the target
time, restore the pool messages and each named agent's local state from it,
set the clock back, and delete every global-history entry after the target;
otherwise do nothing. The pool's own snapshot dictionary is not touched. -/
def revert_environment (e : EnvState) (target_time : Nat) : EnvState :=
  match lookupKey target_time e.global_history with
  | none => e
  | some snapshot =>
    { e with
      message_pool := { e.message_pool with messages := snapshot.message_pool },
      people := e.people.map (fun a =>
        match lookupKey a.name snapshot.agents_state with
        | some st => { a with local_state := st }
        | none => a),
      current_time := target_time,
      global_history := e.global_history.filter (fun q => decide (q.1 ≤ target_time)) }

/-- Environment.raise_conflict: set the flag and the detail payload. -/
def raise_conflict (e : EnvState) (details : Option String) : EnvState :=
  { e with global_conflict_raised := true, conflict_details := details }

/-- Backward search of Environment.resolve_conflict: the first index from
`k` down to 0 holding a global snapshot, if any. -/
def findFallback (hist : List (Nat × EnvSnapshot)) : Nat → Option Nat
  | 0 => if (lookupKey 0 hist).isSome then some 0 else none
  | k + 1 => if (lookupKey (k + 1) hist).isSome then some (k + 1) else findFallback hist k

/-- Environment.resolve_conflict: walk back from `current_time - 1` to 0,
revert to the first index with a snapshot (doing nothing when the search
exhausts, including when `current_time` is 0), then clear the conflict flag
and the detail payload. -/
def resolve_conflict (e : EnvState) : EnvState :=
  let e1 :=
    match e.current_time with
    | 0 => e
    | t + 1 =>
      match findFallback e.global_history t with
      | some fallback_time => revert_environment e fallback_time
      | none => e
  { e1 with global_conflict_raised := false, conflict_details := none }

/-- Environment.run_time_step with the agents' phase abstracted as `act`:
increment the clock, checkpoint at the new time, run the agents, and
resolve a conflict when one was raised. -/
def run_time_step (act : EnvState → EnvState) (e : EnvState) : EnvState :=
  let e1 := { e with current_time := e.current_time + 1 }
  let e2 := checkpoint_environment e1
  let e3 := act e2
  if e3.global_conflict_raised then resolve_conflict e3 else e3

/-- Iterated `run_time_step`, as in Environment.run_until_stable. -/
def runSteps (act : EnvState → EnvState) : Nat → EnvState → EnvState
  | 0, e => e
  | n + 1, e => runSteps act n (run_time_step act e)

/-- Trust graph (Environment/groupchat.py): evaluator name to a dictionary
of evaluatee name to score. -/
abbrev TrustGraph := List (String × List (String × ℚ))

/-- GroupChatEnvironment trust-graph construction: for every ordered pair of
distinct participants, the score defaults to 0.5. -/
def initTrustGraph (names : List String) : TrustGraph :=
  names.map (fun a =>
    (a, (names.filter (fun b => decide (b ≠ a))).map (fun b => (b, (0.5 : ℚ)))))

/-- GroupChatEnvironment.update_trust_score: shift the evaluator's score for
the evaluatee by the learning rate times `0.1 * rating - 0.45`, clamped to
the unit interval. Returns `none` when the evaluator is not a key of the
graph, where the Python raises KeyError before any mutation. -/
def update_trust_score (g : TrustGraph) (evaluator evaluatee : String) (rating : ℚ) :
    Option TrustGraph :=
  match lookupKey evaluator g with
  | none => none
  | some inner =>
    let old_score := (lookupKey evaluatee inner).getD 0.5
    let lr : ℚ := 0.1
    let shift : ℚ := 0.1 * rating - 0.45
    let new_score := max 0 (min 1 (old_score + lr * shift))
    some (insertKey evaluator (insertKey evaluatee new_score inner) g)

/-- One trust update applied to the graph; a KeyError leaves the stored
graph as it was. -/
def applyTrustUpdate (g : TrustGraph) (u : String × String × ℚ) : TrustGraph :=
  (update_trust_score g u.1 u.2.1 u.2.2).getD g

/-- A finite sequence of trust updates. -/
def applyTrustUpdates (g : TrustGraph) (us : List (String × String × ℚ)) : TrustGraph :=
  List.foldl applyTrustUpdate g us

/-- Read one stored trust score. -/
def getScore (g : TrustGraph) (evaluator evaluatee : String) : Option ℚ :=
  (lookupKey evaluator g).bind (fun inner => lookupKey evaluatee inner)

/-- Every score stored anywhere in the trust graph lies in the unit
interval. -/
def boundedGraph (g : TrustGraph) : Prop :=
  ∀ q ∈ g, ∀ r ∈ q.2, 0 ≤ r.2 ∧ r.2 ≤ 1

/-- GroupChatEnvironment state: the base environment plus the trust graph
and the discussion summaries. -/
structure GCState where
  env : EnvState
  trust_graph : TrustGraph
  discussion_history : List String

/-- GroupChatEnvironment.__init__ on a fresh environment. -/
def initGCState (people : List Agent) : GCState :=
  { env := initialEnv people,
    trust_graph := initTrustGraph (people.map Agent.name),
    discussion_history := [] }

/-- GroupChatEnvironment.summary_of_round: a textual summary of the pool. -/
def summary_of_round (round_index : Nat) (g : GCState) : String :=
  "Round " ++ toString round_index ++ " Summary:\n" ++
    String.intercalate "\n"
      (g.env.message_pool.messages.map (fun m => m.send_from ++ ": " ++ m.content))

/-- GroupChatEnvironment.run_round with the agents' phase abstracted as
`act`: checkpoint at the unchanged current time, run the agents, resolve a
conflict when raised, then append the round summary. -/
def run_round (act : GCState → GCState) (round_index : Nat) (g : GCState) : GCState :=
  let g1 := { g with env := checkpoint_environment g.env }
  let g2 := act g1
  let g3 :=
    if g2.env.global_conflict_raised then { g2 with env := resolve_conflict g2.env } else g2
  { g3 with discussion_history := g3.discussion_history ++ [summary_of_round round_index g3] }

/-- Rounds `i, i+1, ..., i+n-1` in order. -/
def runRounds (act : GCState → GCState) : Nat → Nat → GCState → GCState
  | 0, _, g => g
  | n + 1, i, g => runRounds act n (i + 1) (run_round act i g)

/-- GroupChatEnvironment.start_discussion: rounds `0 .. n_rounds-1`. -/
def start_discussion (act : GCState → GCState) (n_rounds : Nat) (g : GCState) : GCState :=
  runRounds act n_rounds 0 g

/-- Concrete message constructor used by the concrete evaluations below. -/
def mkMsg (c f : String) (t : Recipient) : Message :=
  { content := c, send_from := f, send_to := t, timestamp := 0, msg_id := c }

/-- An empty local state. -/
def emptyLState : LState := LState.mk [] [] []

/-- A concrete participant. -/
def agentA : Agent := { name := "A", local_state := emptyLState }

/-- A pool built by append, snapshot 1, append, snapshot 2. -/
def c2pool : MessagePool :=
  snapshot_state
    (update_message
      (snapshot_state
        (update_message { messages := [], history_snapshots := [] }
          (mkMsg "m1" "A" (Recipient.str "B")))
        1)
      (mkMsg "m2" "A" (Recipient.str "B")))
    2

/-- A concrete global-history bundle. -/
def c2snap : EnvSnapshot :=
  { time := 1, message_pool := [], agents_state := [("A", emptyLState)] }

/-- A concrete environment with global snapshots at times 1 and 2. -/
def c2env : EnvState :=
  { people := [agentA],
    message_pool := { messages := [], history_snapshots := [] },
    current_time := 2,
    global_history := [(1, c2snap), (2, c2snap)],
    global_conflict_raised := false,
    conflict_details := none }

/-- A concrete message addressed to the single participant "B". -/
def c3msgB : Message := mkMsg "hi" "A" (Recipient.str "B")

/-- A pool holding only `c3msgB`. -/
def c3pool : MessagePool := { messages := [c3msgB], history_snapshots := [] }

/-- A message whose sender field is the wildcard string "all". -/
def c4msgAll : Message := mkMsg "w" "all" (Recipient.str "bob")

/-- A pool holding only `c4msgAll`. -/
def c4pool : MessagePool := { messages := [c4msgAll], history_snapshots := [] }

/-- A concrete global-history bundle for time 3 holding one message. -/
def c7snap3 : EnvSnapshot :=
  { time := 3, message_pool := [c3msgB], agents_state := [("A", emptyLState)] }

/-- A concrete global-history bundle for time 2 with an empty pool. -/
def c7snap2 : EnvSnapshot :=
  { time := 2, message_pool := [], agents_state := [("A", emptyLState)] }

/-- A concrete environment at time 4 with a raised conflict and global
snapshots at times 3 and 2. -/
def c7env : EnvState :=
  { people := [agentA],
    message_pool := { messages := [c3msgB, c4msgAll], history_snapshots := [] },
    current_time := 4,
    global_history := [(3, c7snap3), (2, c7snap2)],
    global_conflict_raised := true,
    conflict_details := some "contradiction" }

/-- A concrete environment at time 2 with a raised conflict and an empty
global history. -/
def c8env : EnvState :=
  { people := [agentA],
    message_pool := { messages := [c3msgB], history_snapshots := [] },
    current_time := 2,
    global_history := [],
    global_conflict_raised := true,
    conflict_details := some "contradiction" }

/-- An agents' phase that does nothing, the behaviour of BaseAgent's
default `run_one_step`. -/
def idAct : EnvState → EnvState := fun s => s

/-- Three concrete participants. -/
def threeAgents : List Agent :=
  [{ name := "A", local_state := emptyLState },
   { name := "B", local_state := emptyLState },
   { name := "C", local_state := emptyLState }]

/-- A group-chat agents' phase in which a participant raises the global
conflict flag through `raise_conflict`. -/
def raiseAct : GCState → GCState :=
  fun g => { g with env := raise_conflict g.env (some "contradiction") }

/-- A concrete global-history bundle for time 1. -/
def c10snap : EnvSnapshot :=
  { time := 1, message_pool := [], agents_state := [("A", emptyLState)] }

/-- A group-chat agents' phase that does nothing. -/
def gcIdAct : GCState → GCState := fun g => g

/-- A concrete group-chat state at time 2 whose global history holds a
snapshot at time 1. -/
def c10gc : GCState :=
  { env :=
      { people := [agentA],
        message_pool := { messages := [], history_snapshots := [] },
        current_time := 2,
        global_history := [(1, c10snap)],
        global_conflict_raised := false,
        conflict_details := none },
    trust_graph := [],
    discussion_history := [] }

theorem lookupKey_insertKey_self {α β : Type} [DecidableEq α] (k : α) (v : β)
    (l : List (α × β)) : lookupKey k (insertKey k v l) = some v := by
  simp [insertKey, lookupKey]

theorem lookupKey_filter_ne {α β : Type} [DecidableEq α] (k k' : α) (l : List (α × β))
    (h : k' ≠ k) :
    lookupKey k' (l.filter (fun q => decide (q.1 ≠ k))) = lookupKey k' l := by
  induction l with
  | nil => rfl
  | cons q rest ih =>
    rw [List.filter_cons]
    by_cases hq : q.1 = k
    · rw [if_neg (by simp [hq])]
      rw [ih]
      simp only [lookupKey]
      rw [if_neg (by rw [hq]; exact fun hc => h hc.symm)]
    · rw [if_pos (by simp [hq])]
      by_cases hq' : q.1 = k'
      · simp only [lookupKey]
        rw [if_pos hq', if_pos hq']
      · simp only [lookupKey]
        rw [if_neg hq', if_neg hq', ih]

theorem lookupKey_insertKey_ne {α β : Type} [DecidableEq α] (k k' : α) (v : β)
    (l : List (α × β)) (h : k' ≠ k) :
    lookupKey k' (insertKey k v l) = lookupKey k' l := by
  simp only [insertKey, lookupKey]
  rw [if_neg (fun hc => h hc.symm)]
  exact lookupKey_filter_ne k k' l h

theorem lookupKey_mem {α β : Type} [DecidableEq α] {k : α} {v : β} {l : List (α × β)}
    (h : lookupKey k l = some v) : (k, v) ∈ l := by
  induction l with
  | nil => simp [lookupKey] at h
  | cons q rest ih =>
    simp only [lookupKey] at h
    by_cases hq : q.1 = k
    · rw [if_pos hq] at h
      injection h with h2
      have hqv : q = (k, v) := by
        cases q
        simp_all
      rw [← hqv]
      exact List.mem_cons_self _ _
    · rw [if_neg hq] at h
      exact List.mem_cons_of_mem _ (ih h)

theorem filter_ne_of_lookupKey_none {α β : Type} [DecidableEq α] {k : α} {l : List (α × β)}
    (h : lookupKey k l = none) : l.filter (fun q => decide (q.1 ≠ k)) = l := by
  induction l with
  | nil => rfl
  | cons q rest ih =>
    simp only [lookupKey] at h
    by_cases hq : q.1 = k
    · rw [if_pos hq] at h
      exact absurd h (by simp)
    · rw [if_neg hq] at h
      rw [List.filter_cons, if_pos (by simp [hq]), ih h]

theorem lookupKey_filter_le_none {β : Type} (T j : Nat) (l : List (Nat × β)) (hj : T < j) :
    lookupKey j (l.filter (fun q => decide (q.1 ≤ T))) = none := by
  induction l with
  | nil => rfl
  | cons q rest ih =>
    rw [List.filter_cons]
    by_cases hq : q.1 ≤ T
    · rw [if_pos (by simp [hq])]
      simp only [lookupKey]
      rw [if_neg (by omega)]
      exact ih
    · rw [if_neg (by simp [hq])]
      exact ih

theorem appendMessages_messages (p : MessagePool) (ms : List Message) :
    (appendMessages p ms).messages = p.messages ++ ms := by
  induction ms generalizing p with
  | nil => simp [appendMessages]
  | cons m rest ih =>
    simp [appendMessages, List.foldl] at ih ⊢
    rw [ih, update_message]
    simp

theorem appendMessages_history (p : MessagePool) (ms : List Message) :
    (appendMessages p ms).history_snapshots = p.history_snapshots := by
  induction ms generalizing p with
  | nil => rfl
  | cons m rest ih =>
    simp [appendMessages, List.foldl] at ih ⊢
    rw [ih, update_message]

/-- C1: Snapshot/revert round-trip. Appending `ms1` to any pool, taking
`snapshot_state T`, appending `ms2`, then `revert_state T` leaves the live
message sequence exactly as it was at the moment the snapshot was taken. -/
theorem snapshot_revert_round_trip (p : MessagePool) (ms1 ms2 : List Message) (T : Nat) :
    (revert_state (appendMessages (snapshot_state (appendMessages p ms1) T) ms2) T).messages
      = (appendMessages p ms1).messages := by
  have hhist :
      (appendMessages (snapshot_state (appendMessages p ms1) T) ms2).history_snapshots
        = insertKey T (appendMessages p ms1).messages
            (appendMessages p ms1).history_snapshots := by
    rw [appendMessages_history, snapshot_state]
  rw [revert_state, hhist, lookupKey_insertKey_self]

/-- C2 counterexample: in `c2pool` the revert to index 1 succeeds, yet the
pool snapshot stored at index 2 is still retrievable afterwards, so a
pool-level `revert_state` does not discard later snapshots. -/
theorem revert_keeps_later_snapshots_cex :
    (lookupKey 1 c2pool.history_snapshots).isSome = true ∧
    (lookupKey 2 (revert_state c2pool 1).history_snapshots).isSome = true := by
  exact ⟨rfl, rfl⟩

/-- C2 (amended): pool-level `revert_state` leaves the snapshot dictionary
untouched; discarding later indices is done by the separate
`prune_snapshots_after`, and by the environment-level `revert_environment`,
which after a successful revert leaves no global-history entry above the
target retrievable. -/
theorem revert_snapshot_retention (p : MessagePool) (e : EnvState) (T j : Nat)
    (hj : T < j) (hs : (lookupKey T e.global_history).isSome = true) :
    (revert_state p T).history_snapshots = p.history_snapshots ∧
    lookupKey j (prune_snapshots_after p T).history_snapshots = none ∧
    lookupKey j (revert_environment e T).global_history = none := by
  refine ⟨?_, ?_, ?_⟩
  · rw [revert_state]
    cases h : lookupKey T p.history_snapshots <;> rfl
  · exact lookupKey_filter_le_none T j _ hj
  · rw [revert_environment]
    obtain ⟨snap, hsnap⟩ := Option.isSome_iff_exists.mp hs
    rw [hsnap]
    exact lookupKey_filter_le_none T j _ hj

/-- C2 witness: the amended statement evaluated on `c2pool` and `c2env` at
target 1 and later index 2. -/
theorem revert_snapshot_retention_witness :
    (1 < 2 ∧ (lookupKey 1 c2env.global_history).isSome = true) ∧
    ((revert_state c2pool 1).history_snapshots = c2pool.history_snapshots ∧
      lookupKey 2 (prune_snapshots_after c2pool 1).history_snapshots = none ∧
      lookupKey 2 (revert_environment c2env 1).global_history = none) :=
  ⟨⟨by decide, rfl⟩, revert_snapshot_retention c2pool c2env 1 2 (by decide) rfl⟩

/-- C3: Visibility partition. Passing the sentinel "all" returns the entire
sequence; a message addressed to "ALL" is visible to every participant; a
message addressed to a single participant is visible to that participant
and through the sentinel, and to no other participant. -/
theorem visibility_partition (p : MessagePool) (m : Message) (pid x : String)
    (hm : m ∈ p.messages) :
    get_visibile_messages p "all" = p.messages ∧
    (m.send_to = Recipient.str "ALL" → m ∈ get_visibile_messages p x) ∧
    (m.send_to = Recipient.str pid → pid ≠ "ALL" →
      m ∈ get_visibile_messages p pid ∧
      m ∈ get_visibile_messages p "all" ∧
      (x ≠ pid → x ≠ "all" → m ∉ get_visibile_messages p x)) := by
  refine ⟨by rw [get_visibile_messages, if_pos rfl], ?_, ?_⟩
  · intro hall
    by_cases hx : x = "all"
    · rw [get_visibile_messages, if_pos hx]
      exact hm
    · rw [get_visibile_messages, if_neg hx]
      refine List.mem_filter.mpr ⟨hm, ?_⟩
      rw [hall]
      simp
  · intro hto hpid
    refine ⟨?_, by rw [get_visibile_messages, if_pos rfl]; exact hm, ?_⟩
    · by_cases hp : pid = "all"
      · rw [get_visibile_messages, if_pos hp]
        exact hm
      · rw [get_visibile_messages, if_neg hp]
        refine List.mem_filter.mpr ⟨hm, ?_⟩
        rw [hto]
        simp
    · intro hxp hxa hmem
      rw [get_visibile_messages, if_neg hxa] at hmem
      have hpred := (List.mem_filter.mp hmem).2
      rw [hto] at hpred
      simp only [Bool.or_eq_true, beq_iff_eq] at hpred
      rcases hpred with h1 | h2
      · exact hpid h1
      · exact hxp h2.symm

/-- C3 witness: the partition statement evaluated on a pool holding one
message addressed to "B", with the other participant "C". -/
theorem visibility_partition_witness :
    c3msgB ∈ c3pool.messages ∧
    (get_visibile_messages c3pool "all" = c3pool.messages ∧
      (c3msgB.send_to = Recipient.str "ALL" → c3msgB ∈ get_visibile_messages c3pool "C") ∧
      (c3msgB.send_to = Recipient.str "B" → "B" ≠ "ALL" →
        c3msgB ∈ get_visibile_messages c3pool "B" ∧
        c3msgB ∈ get_visibile_messages c3pool "all" ∧
        ("C" ≠ "B" → "C" ≠ "all" → c3msgB ∉ get_visibile_messages c3pool "C"))) :=
  ⟨by decide, visibility_partition c3pool c3msgB "B" "C" (by decide)⟩

/-- C4 counterexample: querying `c4pool` for the messages sent by "bob"
returns the message whose sender is the wildcard string "all", so a message
with a different sender is included. -/
theorem by_sender_wildcard_cex :
    get_ones_messages c4pool "bob" = [c4msgAll] ∧ c4msgAll.send_from ≠ "bob" := by
  exact ⟨rfl, by decide⟩

/-- C4 (amended): for a name other than "all", `get_ones_messages` returns,
in insertion order, exactly the messages whose sender equals the name or
equals the wildcard string "all". -/
theorem get_ones_messages_spec (p : MessagePool) (name : String) (m : Message)
    (hname : name ≠ "all") :
    (m ∈ get_ones_messages p name ↔
      m ∈ p.messages ∧ (m.send_from = name ∨ m.send_from = "all")) ∧
    (get_ones_messages p name).Sublist p.messages := by
  constructor
  · rw [get_ones_messages, if_neg hname, List.mem_filter]
    simp
  · rw [get_ones_messages, if_neg hname]
    exact List.filter_sublist _

/-- C4 witness: the amended statement evaluated on `c4pool` for the sender
name "bob". -/
theorem get_ones_messages_spec_witness :
    ("bob" ≠ "all") ∧
    ((c4msgAll ∈ get_ones_messages c4pool "bob" ↔
        c4msgAll ∈ c4pool.messages ∧
          (c4msgAll.send_from = "bob" ∨ c4msgAll.send_from = "all")) ∧
      (get_ones_messages c4pool "bob").Sublist c4pool.messages) :=
  ⟨by decide, get_ones_messages_spec c4pool "bob" c4msgAll (by decide)⟩

theorem update_trust_score_some (g : TrustGraph) (evaluator evaluatee : String)
    (rating : ℚ) (inner : List (String × ℚ)) (hev : lookupKey evaluator g = some inner) :
    update_trust_score g evaluator evaluatee rating
      = some (insertKey evaluator
          (insertKey evaluatee
            (max 0 (min 1 ((lookupKey evaluatee inner).getD 0.5
              + 0.1 * (0.1 * rating - 0.45)))) inner) g) := by
  simp [update_trust_score, hev]

theorem getScore_applyTrustUpdate (g : TrustGraph) (evaluator evaluatee : String)
    (rating : ℚ) (inner : List (String × ℚ)) (hev : lookupKey evaluator g = some inner) :
    getScore (applyTrustUpdate g (evaluator, evaluatee, rating)) evaluator evaluatee
      = some (max 0 (min 1 ((lookupKey evaluatee inner).getD 0.5
          + 0.1 * (0.1 * rating - 0.45)))) := by
  rw [applyTrustUpdate]
  simp only [update_trust_score_some g evaluator evaluatee rating inner hev,
    Option.getD_some, getScore, lookupKey_insertKey_self, Option.some_bind]

theorem init_ab_lookup :
    lookupKey "a" (initTrustGraph ["a", "b"]) = some [("b", (0.5 : ℚ))] := rfl

/-- C5 counterexample: from the default score 0.5, a rating of 9 produces
the stored score 0.545, a change of +0.045, not the +0.036 the claim
states (0.5 + 0.036 = 0.536). -/
theorem trust_rating_nine_delta_cex :
    getScore (applyTrustUpdate (initTrustGraph ["a", "b"]) ("a", "b", 9)) "a" "b"
      = some (0.545 : ℚ) ∧ (0.545 : ℚ) ≠ 0.5 + 0.036 := by
  constructor
  · rw [getScore_applyTrustUpdate (initTrustGraph ["a", "b"]) "a" "b" 9
      [("b", (0.5 : ℚ))] init_ab_lookup]
    have h2 : lookupKey "b" [("b", (0.5 : ℚ))] = some 0.5 := rfl
    rw [h2, Option.getD_some,
      show ((0.5 : ℚ) + 0.1 * (0.1 * 9 - 0.45)) = 0.545 by norm_num,
      min_eq_right (by norm_num), max_eq_right (by norm_num)]
  · norm_num

/-- C5 (amended): `update_trust_score` stores
`clamp(old + 0.1 * (0.1 * rating - 0.45), 0, 1)`; away from the clamp
bounds a rating of 5 changes the score by +0.005, a rating of 9 by +0.045,
and a rating of 0 by -0.045. -/
theorem update_trust_score_formula (g : TrustGraph) (evaluator evaluatee : String)
    (rating : ℚ) (inner : List (String × ℚ))
    (hev : lookupKey evaluator g = some inner) :
    getScore (applyTrustUpdate g (evaluator, evaluatee, rating)) evaluator evaluatee
      = some (max 0 (min 1 ((lookupKey evaluatee inner).getD 0.5
          + 0.1 * (0.1 * rating - 0.45)))) ∧
    (∀ old : ℚ, lookupKey evaluatee inner = some old →
      (0 ≤ old + 0.005 → old + 0.005 ≤ 1 →
        getScore (applyTrustUpdate g (evaluator, evaluatee, 5)) evaluator evaluatee
          = some (old + 0.005)) ∧
      (0 ≤ old + 0.045 → old + 0.045 ≤ 1 →
        getScore (applyTrustUpdate g (evaluator, evaluatee, 9)) evaluator evaluatee
          = some (old + 0.045)) ∧
      (0 ≤ old - 0.045 → old - 0.045 ≤ 1 →
        getScore (applyTrustUpdate g (evaluator, evaluatee, 0)) evaluator evaluatee
          = some (old - 0.045))) := by
  refine ⟨getScore_applyTrustUpdate g evaluator evaluatee rating inner hev, ?_⟩
  intro old hold
  have hd5 : (0.1 : ℚ) * (0.1 * 5 - 0.45) = 0.005 := by norm_num
  have hd9 : (0.1 : ℚ) * (0.1 * 9 - 0.45) = 0.045 := by norm_num
  have hd0 : (0.1 : ℚ) * (0.1 * 0 - 0.45) = -0.045 := by norm_num
  refine ⟨?_, ?_, ?_⟩
  · intro h0 h1
    rw [getScore_applyTrustUpdate g evaluator evaluatee 5 inner hev, hold,
      Option.getD_some, hd5, min_eq_right h1, max_eq_right h0]
  · intro h0 h1
    rw [getScore_applyTrustUpdate g evaluator evaluatee 9 inner hev, hold,
      Option.getD_some, hd9, min_eq_right h1, max_eq_right h0]
  · intro h0 h1
    have heq : old + (0.1 : ℚ) * (0.1 * 0 - 0.45) = old - 0.045 := by ring
    rw [getScore_applyTrustUpdate g evaluator evaluatee 0 inner hev, hold,
      Option.getD_some, heq, min_eq_right h1, max_eq_right h0]

/-- C5 witness: the amended formula evaluated on the fresh two-participant
trust graph, where the prior score of ("a", "b") is 0.5. -/
theorem update_trust_score_formula_witness :
    lookupKey "a" (initTrustGraph ["a", "b"]) = some [("b", (0.5 : ℚ))] ∧
    getScore (applyTrustUpdate (initTrustGraph ["a", "b"]) ("a", "b", 9)) "a" "b"
      = some (max 0 (min 1 ((lookupKey "b" [("b", (0.5 : ℚ))]).getD 0.5
          + 0.1 * (0.1 * 9 - 0.45)))) :=
  ⟨init_ab_lookup,
    (update_trust_score_formula (initTrustGraph ["a", "b"]) "a" "b" 9
      [("b", (0.5 : ℚ))] init_ab_lookup).1⟩

theorem boundedGraph_init (names : List String) : boundedGraph (initTrustGraph names) := by
  intro q hq r hr
  rw [initTrustGraph] at hq
  obtain ⟨a, _, rfl⟩ := List.mem_map.mp hq
  obtain ⟨b, _, rfl⟩ := List.mem_map.mp hr
  norm_num

theorem boundedGraph_applyTrustUpdate (g : TrustGraph) (u : String × String × ℚ)
    (hb : boundedGraph g) : boundedGraph (applyTrustUpdate g u) := by
  obtain ⟨evaluator, evaluatee, rating⟩ := u
  rw [applyTrustUpdate]
  cases hev : lookupKey evaluator g with
  | none =>
    have : update_trust_score g evaluator evaluatee rating = none := by
      simp [update_trust_score, hev]
    rw [this]
    exact hb
  | some inner =>
    rw [update_trust_score_some g evaluator evaluatee rating inner hev, Option.getD_some]
    intro q hq r hr
    rw [insertKey] at hq
    rcases List.mem_cons.mp hq with hq1 | hq2
    · subst hq1
      rw [insertKey] at hr
      rcases List.mem_cons.mp hr with hr1 | hr2
      · subst hr1
        constructor
        · exact le_max_left 0 _
        · exact max_le (by norm_num) (min_le_left 1 _)
      · exact hb (evaluator, inner) (lookupKey_mem hev) r (List.mem_of_mem_filter hr2)
    · exact hb q (List.mem_of_mem_filter hq2) r hr

theorem boundedGraph_applyTrustUpdates (g : TrustGraph)
    (us : List (String × String × ℚ)) (hb : boundedGraph g) :
    boundedGraph (applyTrustUpdates g us) := by
  induction us generalizing g with
  | nil => exact hb
  | cons u rest ih =>
    exact ih (applyTrustUpdate g u) (boundedGraph_applyTrustUpdate g u hb)

/-- C6: Trust bound invariant. Starting from the initial trust graph, every
score retrievable after any finite sequence of trust updates lies in the
unit interval. -/
theorem trust_bound_invariant (names : List String) (updates : List (String × String × ℚ))
    (evaluator evaluatee : String) (s : ℚ)
    (h : getScore (applyTrustUpdates (initTrustGraph names) updates) evaluator evaluatee
      = some s) :
    0 ≤ s ∧ s ≤ 1 := by
  have hb := boundedGraph_applyTrustUpdates (initTrustGraph names) updates
    (boundedGraph_init names)
  rw [getScore] at h
  obtain ⟨inner, hev, hee⟩ := Option.bind_eq_some.mp h
  exact hb (evaluator, inner) (lookupKey_mem hev) (evaluatee, s) (lookupKey_mem hee)

/-- C6 witness: an extreme rating of 100 drives the score of ("a", "b") to
the clamp bound 1, which the invariant places inside the unit interval. -/
theorem trust_bound_invariant_witness :
    getScore (applyTrustUpdates (initTrustGraph ["a", "b"]) [("a", "b", 100)]) "a" "b"
      = some 1 ∧ (0 ≤ (1 : ℚ) ∧ (1 : ℚ) ≤ 1) := by
  have hg : getScore (applyTrustUpdates (initTrustGraph ["a", "b"]) [("a", "b", 100)]) "a" "b"
      = some 1 := by
    show getScore (applyTrustUpdate (initTrustGraph ["a", "b"]) ("a", "b", 100)) "a" "b"
      = some 1
    rw [getScore_applyTrustUpdate (initTrustGraph ["a", "b"]) "a" "b" 100
      [("b", (0.5 : ℚ))] init_ab_lookup]
    have h2 : lookupKey "b" [("b", (0.5 : ℚ))] = some 0.5 := rfl
    rw [h2, Option.getD_some, min_eq_left (by norm_num), max_eq_right (by norm_num)]
  exact ⟨hg, trust_bound_invariant ["a", "b"] [("a", "b", 100)] "a" "b" 1 hg⟩

theorem findFallback_eq_max (hist : List (Nat × EnvSnapshot)) (T k : Nat)
    (hTk : T ≤ k) (hs : (lookupKey T hist).isSome = true)
    (hmax : ∀ j, T < j → j ≤ k → lookupKey j hist = none) :
    findFallback hist k = some T := by
  induction k with
  | zero =>
    have hT0 : T = 0 := Nat.le_zero.mp hTk
    subst hT0
    simp only [findFallback, hs, if_true]
  | succ k ih =>
    by_cases hT : T = k + 1
    · subst hT
      simp only [findFallback, hs, if_true]
    · have hnone : lookupKey (k + 1) hist = none := hmax (k + 1) (by omega) (by omega)
      simp only [findFallback, hnone, Option.isSome_none, Bool.false_eq_true, if_false]
      exact ih (by omega) (fun j hj1 hj2 => hmax j hj1 (by omega))

theorem findFallback_none (hist : List (Nat × EnvSnapshot)) (k : Nat)
    (h : ∀ j, j ≤ k → lookupKey j hist = none) :
    findFallback hist k = none := by
  induction k with
  | zero =>
    simp only [findFallback, h 0 (Nat.le_refl 0), Option.isSome_none,
      Bool.false_eq_true, if_false]
  | succ k ih =>
    simp only [findFallback, h (k + 1) (Nat.le_refl (k + 1)), Option.isSome_none,
      Bool.false_eq_true, if_false]
    exact ih (fun j hj => h j (by omega))

theorem revert_environment_eq (e : EnvState) (T : Nat) (snap : EnvSnapshot)
    (hsnap : lookupKey T e.global_history = some snap) :
    revert_environment e T
      = { e with
          message_pool := { e.message_pool with messages := snap.message_pool },
          people := e.people.map (fun a =>
            match lookupKey a.name snap.agents_state with
            | some st => { a with local_state := st }
            | none => a),
          current_time := T,
          global_history := e.global_history.filter (fun q => decide (q.1 ≤ T)) } := by
  simp only [revert_environment, hsnap]

/-- C7: Conflict resolution target. When at least one global snapshot
exists strictly below the current time and `T` is the largest such index,
`resolve_conflict` is the whole-system revert to `T` followed by clearing
the conflict flag and detail payload; in particular the pool messages and
every participant's local state come from the snapshot at `T` and the
clock is set to `T`. -/
theorem resolve_conflict_target (e : EnvState) (T : Nat)
    (hT : T < e.current_time)
    (hs : (lookupKey T e.global_history).isSome = true)
    (hmax : ∀ j, T < j → j < e.current_time → lookupKey j e.global_history = none) :
    resolve_conflict e
      = { revert_environment e T with
          global_conflict_raised := false, conflict_details := none } ∧
    (resolve_conflict e).current_time = T ∧
    (resolve_conflict e).global_conflict_raised = false ∧
    (resolve_conflict e).conflict_details = none ∧
    (∀ snap, lookupKey T e.global_history = some snap →
      (resolve_conflict e).message_pool.messages = snap.message_pool ∧
      (resolve_conflict e).people = e.people.map (fun a =>
        match lookupKey a.name snap.agents_state with
        | some st => { a with local_state := st }
        | none => a)) := by
  obtain ⟨t, ht⟩ : ∃ t, e.current_time = t + 1 := ⟨e.current_time - 1, by omega⟩
  have hFF : findFallback e.global_history t = some T :=
    findFallback_eq_max e.global_history T t (by omega) hs
      (fun j hj1 hj2 => hmax j hj1 (by omega))
  have hmain : resolve_conflict e
      = { revert_environment e T with
          global_conflict_raised := false, conflict_details := none } := by
    simp only [resolve_conflict, ht, hFF]
  obtain ⟨snap, hsnap⟩ := Option.isSome_iff_exists.mp hs
  have hrev := revert_environment_eq e T snap hsnap
  refine ⟨hmain, ?_, ?_, ?_, ?_⟩
  · rw [hmain, hrev]
  · rw [hmain]
  · rw [hmain]
  · intro snap' hsnap'
    have hss : snap' = snap := by
      rw [hsnap] at hsnap'
      exact (Option.some_inj.mp hsnap').symm
    subst hss
    rw [hmain, hrev]
    exact ⟨rfl, rfl⟩

/-- C7 witness: a conflict at time 4 with global snapshots at times 3 and
2 resolves to time 3 with the flag and details cleared, and the system
state comes from the snapshot at time 3. -/
theorem resolve_conflict_target_witness :
    ((3 < c7env.current_time ∧ (lookupKey 3 c7env.global_history).isSome = true) ∧
      lookupKey 3 c7env.global_history = some c7snap3) ∧
    ((resolve_conflict c7env).current_time = 3 ∧
      (resolve_conflict c7env).global_conflict_raised = false ∧
      (resolve_conflict c7env).conflict_details = none ∧
      (resolve_conflict c7env).message_pool.messages = c7snap3.message_pool) :=
  ⟨⟨⟨by decide, rfl⟩, rfl⟩,
    ⟨(resolve_conflict_target c7env 3 (by decide) rfl (fun j h1 h2 => absurd (show j < 4 from h2) (by omega))).2.1,
      (resolve_conflict_target c7env 3 (by decide) rfl (fun j h1 h2 => absurd (show j < 4 from h2) (by omega))).2.2.1,
      (resolve_conflict_target c7env 3 (by decide) rfl (fun j h1 h2 => absurd (show j < 4 from h2) (by omega))).2.2.2.1,
      ((resolve_conflict_target c7env 3 (by decide) rfl
        (fun j h1 h2 => absurd (show j < 4 from h2) (by omega))).2.2.2.2 c7snap3 rfl).1⟩⟩

/-- C8: Conflict resolution with no earlier snapshot. When no global
snapshot exists at any index strictly below the current time, the backward
search exhausts and `resolve_conflict` only clears the conflict flag and
the detail payload, leaving the pool, the participants, the clock and the
global history unchanged. -/
theorem resolve_conflict_no_snapshot (e : EnvState)
    (h : ∀ j, j < e.current_time → lookupKey j e.global_history = none) :
    resolve_conflict e
      = { e with global_conflict_raised := false, conflict_details := none } ∧
    (resolve_conflict e).message_pool = e.message_pool ∧
    (resolve_conflict e).people = e.people ∧
    (resolve_conflict e).current_time = e.current_time ∧
    (resolve_conflict e).global_history = e.global_history := by
  have hmain : resolve_conflict e
      = { e with global_conflict_raised := false, conflict_details := none } := by
    cases ht : e.current_time with
    | zero => simp only [resolve_conflict, ht]
    | succ t =>
      have hFF : findFallback e.global_history t = none :=
        findFallback_none e.global_history t (fun j hj => h j (by omega))
      simp only [resolve_conflict, ht, hFF]
  refine ⟨hmain, ?_, ?_, ?_, ?_⟩ <;> rw [hmain]

/-- C8 witness: the no-snapshot branch evaluated on a concrete environment
at time 2 with an empty global history. -/
theorem resolve_conflict_no_snapshot_witness :
    c8env.global_history = [] ∧
    (resolve_conflict c8env
        = { c8env with global_conflict_raised := false, conflict_details := none } ∧
      (resolve_conflict c8env).message_pool = c8env.message_pool ∧
      (resolve_conflict c8env).people = c8env.people ∧
      (resolve_conflict c8env).current_time = c8env.current_time ∧
      (resolve_conflict c8env).global_history = c8env.global_history) :=
  ⟨rfl, resolve_conflict_no_snapshot c8env (fun _ _ => rfl)⟩

theorem lookupKey_cons {α β : Type} [DecidableEq α] (k k' : α) (v : β) (l : List (α × β)) :
    lookupKey k' ((k, v) :: l) = if k = k' then some v else lookupKey k' l := rfl

theorem run_time_step_no_conflict (act : EnvState → EnvState)
    (hC : ∀ s, s.global_conflict_raised = false → (act s).global_conflict_raised = false)
    (s : EnvState) (hs : s.global_conflict_raised = false) :
    run_time_step act s
      = act (checkpoint_environment { s with current_time := s.current_time + 1 }) := by
  have h2 : (checkpoint_environment
      { s with current_time := s.current_time + 1 }).global_conflict_raised = false := hs
  have h3 := hC _ h2
  simp only [run_time_step, h3, Bool.false_eq_true, if_false]

theorem runSteps_succ_comm (act : EnvState → EnvState) (n : Nat) (e : EnvState) :
    runSteps act (n + 1) e = run_time_step act (runSteps act n e) := by
  induction n generalizing e with
  | zero => rfl
  | succ n ih =>
    show runSteps act (n + 1) (run_time_step act e)
      = run_time_step act (runSteps act (n + 1) e)
    rw [ih (run_time_step act e)]
    rfl

theorem runSteps_schedule_invariant (act : EnvState → EnvState)
    (hT : ∀ s, (act s).current_time = s.current_time)
    (hH : ∀ s, (act s).global_history = s.global_history)
    (hC : ∀ s, s.global_conflict_raised = false → (act s).global_conflict_raised = false)
    (hM : ∀ s, s.message_pool.messages.length ≤ (act s).message_pool.messages.length)
    (ps : List Agent) (n : Nat) :
    (runSteps act n (initialEnv ps)).current_time = n ∧
    (runSteps act n (initialEnv ps)).global_conflict_raised = false ∧
    (∀ k, (lookupKey k (runSteps act n (initialEnv ps)).global_history).isSome = true
      ↔ (1 ≤ k ∧ k ≤ n)) ∧
    (runSteps act n (initialEnv ps)).global_history.length = n ∧
    (∀ k v w, lookupKey k (runSteps act n (initialEnv ps)).global_history = some v →
      lookupKey (k + 1) (runSteps act n (initialEnv ps)).global_history = some w →
      v.message_pool.length ≤ w.message_pool.length) ∧
    (∀ v, lookupKey n (runSteps act n (initialEnv ps)).global_history = some v →
      v.message_pool.length ≤ (runSteps act n (initialEnv ps)).message_pool.messages.length) := by
  induction n with
  | zero =>
    refine ⟨rfl, rfl, ?_, rfl, ?_, ?_⟩
    · intro k
      constructor
      · intro hk
        simp [runSteps, initialEnv, lookupKey] at hk
      · intro hk
        omega
    · intro k v w hv _
      simp [runSteps, initialEnv, lookupKey] at hv
    · intro v hv
      simp [runSteps, initialEnv, lookupKey] at hv
  | succ n ih =>
    obtain ⟨iT, iC, iK, iL, iM, iR⟩ := ih
    rw [runSteps_succ_comm]
    set s := runSteps act n (initialEnv ps) with hsdef
    rw [run_time_step_no_conflict act hC s iC]
    set e2 := checkpoint_environment { s with current_time := s.current_time + 1 } with he2
    have hnone : lookupKey (s.current_time + 1) s.global_history = none := by
      have h1 : ¬ ((lookupKey (s.current_time + 1) s.global_history).isSome = true) := by
        rw [iK (s.current_time + 1), iT]
        omega
      exact Option.not_isSome_iff_eq_none.mp h1
    have hcons : e2.global_history
        = (s.current_time + 1,
            ({ time := s.current_time + 1,
               message_pool := s.message_pool.messages,
               agents_state := s.people.map (fun a => (a.name, a.local_state)) } : EnvSnapshot))
          :: s.global_history := by
      have h0 : e2.global_history
          = insertKey (s.current_time + 1)
              ({ time := s.current_time + 1,
                 message_pool := s.message_pool.messages,
                 agents_state := s.people.map (fun a => (a.name, a.local_state)) } : EnvSnapshot)
              s.global_history := rfl
      rw [h0, insertKey, filter_ne_of_lookupKey_none hnone]
    have hact_time : (act e2).current_time = n + 1 := by
      rw [hT e2]
      show s.current_time + 1 = n + 1
      omega
    have hact_hist : (act e2).global_history
        = (s.current_time + 1,
            ({ time := s.current_time + 1,
               message_pool := s.message_pool.messages,
               agents_state := s.people.map (fun a => (a.name, a.local_state)) } : EnvSnapshot))
          :: s.global_history := by
      rw [hH e2, hcons]
    have hact_flag : (act e2).global_conflict_raised = false := hC e2 iC
    have hact_pool : s.message_pool.messages.length ≤ (act e2).message_pool.messages.length :=
      hM e2
    refine ⟨hact_time, hact_flag, ?_, ?_, ?_, ?_⟩
    · intro k
      rw [hact_hist, lookupKey_cons]
      by_cases hk : s.current_time + 1 = k
      · rw [if_pos hk]
        simp only [Option.isSome_some]
        constructor
        · intro _
          omega
        · intro _
          trivial
      · rw [if_neg hk]
        rw [iK k]
        omega
    · rw [hact_hist]
      simp [iL]
    · intro k v w hv hw
      rw [hact_hist, lookupKey_cons] at hv hw
      by_cases hk1 : s.current_time + 1 = k
      · rw [if_pos hk1] at hv
        rw [if_neg (by omega)] at hw
        exact absurd ((iK (k + 1)).mp (by rw [hw]; rfl)) (by omega)
      · rw [if_neg hk1] at hv
        by_cases hk2 : s.current_time + 1 = k + 1
        · rw [if_pos hk2] at hw
          injection hw with hw2
          have hkn : k = n := by omega
          rw [hkn] at hv
          have hvle := iR v hv
          rw [← hw2]
          exact hvle
        · rw [if_neg hk2] at hw
          exact iM k v w hv hw
    · intro v hv
      rw [hact_hist, lookupKey_cons] at hv
      rw [if_pos (show s.current_time + 1 = n + 1 by omega)] at hv
      injection hv with hv2
      rw [← hv2]
      exact hact_pool

/-- C9: Step-loop checkpoint schedule. Each `run_time_step` on a
conflict-free state first increments the clock and stores the global
checkpoint at the new time, capturing the pool and every participant's
local state before the agents act; and a fresh environment run for 5
conflict-free steps (agents only appending messages) has a global history
of exactly 5 entries keyed 1 through 5 whose recorded pool lengths are
monotone in the key. -/
theorem step_loop_checkpoint_schedule (ps : List Agent) (act : EnvState → EnvState)
    (hT : ∀ s, (act s).current_time = s.current_time)
    (hH : ∀ s, (act s).global_history = s.global_history)
    (hC : ∀ s, s.global_conflict_raised = false → (act s).global_conflict_raised = false)
    (hM : ∀ s, s.message_pool.messages.length ≤ (act s).message_pool.messages.length) :
    (∀ s, s.global_conflict_raised = false →
      (run_time_step act s).current_time = s.current_time + 1 ∧
      lookupKey (s.current_time + 1) (run_time_step act s).global_history
        = some { time := s.current_time + 1,
                 message_pool := s.message_pool.messages,
                 agents_state := s.people.map (fun a => (a.name, a.local_state)) }) ∧
    (runSteps act 5 (initialEnv ps)).global_history.length = 5 ∧
    (∀ k, (lookupKey k (runSteps act 5 (initialEnv ps)).global_history).isSome = true
      ↔ (1 ≤ k ∧ k ≤ 5)) ∧
    (∀ k v w, 1 ≤ k → k < 5 →
      lookupKey k (runSteps act 5 (initialEnv ps)).global_history = some v →
      lookupKey (k + 1) (runSteps act 5 (initialEnv ps)).global_history = some w →
      v.message_pool.length ≤ w.message_pool.length) := by
  obtain ⟨iT, iC, iK, iL, iM, iR⟩ := runSteps_schedule_invariant act hT hH hC hM ps 5
  refine ⟨?_, iL, iK, fun k v w _ _ hv hw => iM k v w hv hw⟩
  intro s hs
  rw [run_time_step_no_conflict act hC s hs]
  constructor
  · rw [hT _]
    rfl
  · rw [hH _]
    exact lookupKey_insertKey_self _ _ _

/-- C9 witness: the schedule evaluated with three participants and the
do-nothing agents' phase. -/
theorem step_loop_checkpoint_schedule_witness :
    (runSteps idAct 5 (initialEnv threeAgents)).global_history.length = 5 ∧
    (∀ k, (lookupKey k (runSteps idAct 5 (initialEnv threeAgents)).global_history).isSome = true
      ↔ (1 ≤ k ∧ k ≤ 5)) :=
  ⟨(step_loop_checkpoint_schedule threeAgents idAct (fun _ => rfl) (fun _ => rfl)
      (fun _ h => h) (fun _ => Nat.le_refl _)).2.1,
    (step_loop_checkpoint_schedule threeAgents idAct (fun _ => rfl) (fun _ => rfl)
      (fun _ h => h) (fun _ => Nat.le_refl _)).2.2.1⟩

/-- C10 counterexample: `run_round` does modify `current_time` when a
participant raises the global conflict flag during the round and an
earlier global snapshot exists: from time 2 with a snapshot at time 1,
conflict resolution inside the round reverts the clock to 1. -/
theorem run_round_changes_time_cex :
    c10gc.env.current_time = 2 ∧ (run_round raiseAct 0 c10gc).env.current_time = 1 := by
  exact ⟨rfl, rfl⟩

theorem run_round_frame (act : GCState → GCState)
    (hT : ∀ s, (act s).env.current_time = s.env.current_time)
    (hH : ∀ s, (act s).env.global_history = s.env.global_history)
    (hC : ∀ s, s.env.global_conflict_raised = false →
      (act s).env.global_conflict_raised = false)
    (round_index : Nat) (g : GCState) (hg : g.env.global_conflict_raised = false) :
    (run_round act round_index g).env.current_time = g.env.current_time ∧
    (run_round act round_index g).env.global_conflict_raised = false ∧
    (run_round act round_index g).env.global_history
      = insertKey g.env.current_time
          ({ time := g.env.current_time,
             message_pool := g.env.message_pool.messages,
             agents_state := g.env.people.map (fun a => (a.name, a.local_state)) } : EnvSnapshot)
          g.env.global_history := by
  have h1 : ({ g with env := checkpoint_environment g.env } : GCState).env.global_conflict_raised
      = false := hg
  have h2 := hC _ h1
  have hmain : run_round act round_index g
      = { act { g with env := checkpoint_environment g.env } with
          discussion_history :=
            (act { g with env := checkpoint_environment g.env }).discussion_history
              ++ [summary_of_round round_index
                    (act { g with env := checkpoint_environment g.env })] } := by
    simp only [run_round, h2, Bool.false_eq_true, if_false]
  rw [hmain]
  refine ⟨?_, ?_, ?_⟩
  · show (act { g with env := checkpoint_environment g.env }).env.current_time
      = g.env.current_time
    rw [hT _]
    rfl
  · exact h2
  · show (act { g with env := checkpoint_environment g.env }).env.global_history = _
    rw [hH _]
    rfl

theorem runRounds_keep (act : GCState → GCState)
    (hT : ∀ s, (act s).env.current_time = s.env.current_time)
    (hH : ∀ s, (act s).env.global_history = s.env.global_history)
    (hC : ∀ s, s.env.global_conflict_raised = false →
      (act s).env.global_conflict_raised = false)
    (k : Nat) :
    ∀ (i : Nat) (g : GCState), g.env.current_time = 0 →
      g.env.global_conflict_raised = false →
      (∃ v, g.env.global_history = [(0, v)]) →
      (runRounds act k i g).env.current_time = 0 ∧
      (runRounds act k i g).env.global_conflict_raised = false ∧
      ∃ v, (runRounds act k i g).env.global_history = [(0, v)] := by
  induction k with
  | zero =>
    intro i g h0 hf hh
    exact ⟨h0, hf, hh⟩
  | succ k ih =>
    intro i g h0 hf hh
    obtain ⟨v, hv⟩ := hh
    obtain ⟨f1, f2, f3⟩ := run_round_frame act hT hH hC i g hf
    have hh2 : (run_round act i g).env.global_history
        = [(0, ({ time := 0, message_pool := g.env.message_pool.messages,
                  agents_state := g.env.people.map (fun a => (a.name, a.local_state)) }
            : EnvSnapshot))] := by
      rw [f3, h0, hv]
      rfl
    simp only [runRounds]
    exact ih (i + 1) (run_round act i g) (by rw [f1, h0]) f2 ⟨_, hh2⟩

/-- C10 (amended): `run_round` leaves `current_time` unchanged provided no
conflict is raised during the round, and then stores the round's
checkpoint in the global history under that unchanged key; consequently
every discussion of at least one round from a fresh GroupChatEnvironment
leaves exactly one global-history entry, keyed 0, each round overwriting
the previous round's bundle. -/
theorem run_round_checkpoint_key (act : GCState → GCState) (round_index : Nat)
    (g : GCState) (ps : List Agent) (n : Nat)
    (hT : ∀ s, (act s).env.current_time = s.env.current_time)
    (hH : ∀ s, (act s).env.global_history = s.env.global_history)
    (hC : ∀ s, s.env.global_conflict_raised = false →
      (act s).env.global_conflict_raised = false)
    (hg : g.env.global_conflict_raised = false)
    (hn : 1 ≤ n) :
    (run_round act round_index g).env.current_time = g.env.current_time ∧
    (lookupKey g.env.current_time (run_round act round_index g).env.global_history).isSome
      = true ∧
    (start_discussion act n (initGCState ps)).env.global_history.length = 1 ∧
    (lookupKey 0 (start_discussion act n (initGCState ps)).env.global_history).isSome
      = true := by
  obtain ⟨f1, f2, f3⟩ := run_round_frame act hT hH hC round_index g hg
  obtain ⟨m, hm⟩ : ∃ m, n = m + 1 := ⟨n - 1, by omega⟩
  subst hm
  have hinitf : (initGCState ps).env.global_conflict_raised = false := rfl
  obtain ⟨g1, g2, g3⟩ := run_round_frame act hT hH hC 0 (initGCState ps) hinitf
  have hh1 : (run_round act 0 (initGCState ps)).env.global_history
      = [(0, ({ time := 0, message_pool := [],
                agents_state := ps.map (fun a => (a.name, a.local_state)) }
          : EnvSnapshot))] := by
    rw [g3]
    rfl
  obtain ⟨kt, kf, v, hv⟩ := runRounds_keep act hT hH hC m 1 (run_round act 0 (initGCState ps))
    (by rw [g1]; rfl) g2 ⟨_, hh1⟩
  refine ⟨f1, ?_, ?_, ?_⟩
  · rw [f3, lookupKey_insertKey_self]
    rfl
  · show (runRounds act m 1 (run_round act 0 (initGCState ps))).env.global_history.length = 1
    rw [hv]
    rfl
  · show (lookupKey 0
      (runRounds act m 1 (run_round act 0 (initGCState ps))).env.global_history).isSome = true
    rw [hv]
    rfl

/-- C10 witness: the amended statement evaluated with the do-nothing
group-chat phase on the concrete state `c10gc` and a fresh two-round
discussion of three participants. -/
theorem run_round_checkpoint_key_witness :
    (c10gc.env.global_conflict_raised = false ∧ 1 ≤ 2) ∧
    ((run_round gcIdAct 0 c10gc).env.current_time = c10gc.env.current_time ∧
      (lookupKey c10gc.env.current_time
        (run_round gcIdAct 0 c10gc).env.global_history).isSome = true ∧
      (start_discussion gcIdAct 2 (initGCState threeAgents)).env.global_history.length = 1 ∧
      (lookupKey 0
        (start_discussion gcIdAct 2 (initGCState threeAgents)).env.global_history).isSome
        = true) :=
  ⟨⟨rfl, by omega⟩,
    run_round_checkpoint_key gcIdAct 0 c10gc threeAgents 2 (fun _ => rfl) (fun _ => rfl)
      (fun _ h => h) rfl (by omega)⟩
